import Mathlib

/-!
Verification of the changelog assembly pipeline of `git-changelog-ai`.

The Python sources are shallowly embedded: Python strings become `String`
(sequences of unicode code points, matching Python's `str`), Python `s[:n]`
slicing becomes `List.take` on `String.data`, `str.lower()` / `str.upper()`
become `Char.toLower` / `Char.toUpper` mapped over the code points (faithful
on the ASCII and CJK text the program manipulates), and the external
collaborators (git subprocess, AI HTTP call) become explicit inputs; the
calls the pipeline issues to them are tracked in an event list.
-/

namespace GitChangelogAI

/-! ### Constants (`constants.py`) -/

def DEFAULT_MAX_DIFF_CHARS : Nat := 50000

def IGNORE_PATTERNS : List String :=
  ["CHANGELOG.md", "CHANGELOG*.md", "package-lock.json", "yarn.lock", "pnpm-lock.yaml"]

/-- The eight commit categories, `Category` in the spec.  The constructor
order is the `CATEGORY_DISPLAY` declaration order of `constants.py`. -/
inductive Cat where
  | new_features
  | bug_fixes
  | performance
  | refactoring
  | styling
  | configuration
  | documentation
  | others
deriving DecidableEq

/-- `COMMIT_KEYWORDS` of `constants.py`, in its own (dict insertion)
declaration order: note `documentation` is declared before `styling` here,
unlike in `CATEGORY_DISPLAY`. -/
def COMMIT_KEYWORDS : List (Cat × List String) :=
  [ (.new_features, ["新增", "添加", "add", "feat", "feature", "功能", "new", "implement", "支持"]),
    (.bug_fixes, ["修复", "修正", "fix", "bug", "问题", "issue", "错误", "resolve", "hotfix"]),
    (.performance, ["优化", "性能", "perf", "performance", "提升", "改进", "improve", "optimize", "加速"]),
    (.refactoring, ["重构", "refactor", "调整", "重写", "rewrite", "restructure", "改造"]),
    (.documentation, ["文档", "doc", "documentation", "注释", "comment", "readme", "changelog"]),
    (.styling, ["样式", "style", "css", "ui", "界面", "美化", "format", "布局"]),
    (.configuration, ["配置", "config", "configuration", "设置", "setting", "build", "ci", "chore", "deps"]) ]

/-- `CATEGORY_DISPLAY` of `constants.py`: display order and labels. -/
def CATEGORY_DISPLAY : List (Cat × String) :=
  [ (.new_features, "✨ 新功能"),
    (.bug_fixes, "🐛 问题修复"),
    (.performance, "⚡ 性能优化"),
    (.refactoring, "🔨 代码重构"),
    (.styling, "🎨 样式调整"),
    (.configuration, "🔧 配置变更"),
    (.documentation, "📝 文档更新"),
    (.others, "📦 其他变更") ]

def SKIP_COMMIT_KEYWORDS : List String := ["merge", "version", "版本", "release"]

def COMMIT_PREFIXES : List String :=
  ["feat:", "fix:", "chore:", "docs:", "style:", "refactor:", "perf:", "test:"]

/-! ### Data model (`types.py`) -/

/-- `CommitInfo` of `types.py`. -/
structure CommitInfo where
  hash : String
  author : String
  email : String
  date : String
  message : String
deriving DecidableEq

/-! ### String helpers embedding Python primitives -/

/-- Python's substring test `needle in hay` on code-point sequences. -/
def containsSub (needle : List Char) : List Char → Bool
  | [] => needle.isEmpty
  | c :: t => needle.isPrefixOf (c :: t) || containsSub needle t

/-- Python's `s.lower()` (code-point-wise; faithful on ASCII/CJK). -/
def pyLower (s : String) : List Char := s.data.map Char.toLower

/-- Python's `s.strip()`: drop leading and trailing whitespace. -/
def pyStrip (l : List Char) : List Char :=
  ((l.dropWhile Char.isWhitespace).reverse.dropWhile Char.isWhitespace).reverse

/-! ### Commit classifier (`core.py`, `classify_commits`) -/

/-- `any(skip in message for skip in SKIP_COMMIT_KEYWORDS)` on the
lower-cased message. -/
def isSkippedCommit (c : CommitInfo) : Bool :=
  SKIP_COMMIT_KEYWORDS.any fun k => containsSub k.data (pyLower c.message)

/-- The `for category, keywords in COMMIT_KEYWORDS.items()` loop: first
category (in `COMMIT_KEYWORDS` order) with a keyword occurring in `msg`. -/
def firstMatchCat (msg : List Char) : Option Cat :=
  (COMMIT_KEYWORDS.find? fun p => p.2.any fun kw => containsSub kw.data msg).map (·.1)

/-- The category a single commit is routed to by the body of
`classify_commits`: `none` means the commit is skipped (dropped). -/
def assignCat (c : CommitInfo) : Option Cat :=
  let msg := pyLower c.message
  if SKIP_COMMIT_KEYWORDS.any fun k => containsSub k.data msg then none
  else
    match firstMatchCat msg with
    | some k => some k
    | none => some .others

/-- One iteration of the `for commit in commits` loop of `classify_commits`:
append the commit to its category's list (or drop it). -/
def classifyStep (cats : Cat → List CommitInfo) (c : CommitInfo) : Cat → List CommitInfo :=
  match assignCat c with
  | none => cats
  | some k => fun k' => if k' = k then cats k' ++ [c] else cats k'

/-- `classify_commits` of `core.py`: the category dict is embedded as a
function from `Cat` to the commit list accumulated for that category. -/
def classify_commits (commits : List CommitInfo) : Cat → List CommitInfo :=
  commits.foldl classifyStep fun _ => []

/-- `sum(len(v) for v in categories.values())` in `generate_basic_changelog`:
the dict's keys are exactly the `CATEGORY_DISPLAY` keys. -/
def totalClassified (cats : Cat → List CommitInfo) : Nat :=
  (CATEGORY_DISPLAY.map fun p => (cats p.1).length).sum

/-! ### Classifier lemmas -/

theorem classify_foldl_get (commits : List CommitInfo) (init : Cat → List CommitInfo)
    (k : Cat) :
    (commits.foldl classifyStep init) k
      = init k ++ commits.filter fun c => decide (assignCat c = some k) := by
  induction commits generalizing init with
  | nil => simp
  | cons c rest ih =>
    rw [List.foldl_cons, ih]
    rcases h : assignCat c with _ | j
    · simp [classifyStep, h, List.filter_cons]
    · by_cases hk : j = k
      · subst hk
        simp [classifyStep, h, List.filter_cons]
      · simp [classifyStep, h, List.filter_cons, hk, Ne.symm hk]

theorem classify_commits_get (commits : List CommitInfo) (k : Cat) :
    classify_commits commits k
      = commits.filter fun c => decide (assignCat c = some k) := by
  unfold classify_commits
  rw [classify_foldl_get]
  simp

theorem mem_classify_iff (commits : List CommitInfo) (k : Cat) (c : CommitInfo) :
    c ∈ classify_commits commits k ↔ c ∈ commits ∧ assignCat c = some k := by
  rw [classify_commits_get]
  simp [List.mem_filter]

theorem assignCat_of_skipped (c : CommitInfo) (h : isSkippedCommit c = true) :
    assignCat c = none := by
  unfold assignCat
  unfold isSkippedCommit at h
  simp only [h, if_pos]

theorem assignCat_isSome_of_not_skipped (c : CommitInfo) (h : isSkippedCommit c = false) :
    ∃ k, assignCat c = some k := by
  unfold assignCat
  unfold isSkippedCommit at h
  simp only [h]
  rcases firstMatchCat (pyLower c.message) with _ | k
  · exact ⟨.others, rfl⟩
  · exact ⟨k, rfl⟩

/-! ### Message formatter (`core.py`, `format_commit_message`) -/

/-- `format_commit_message` of `core.py`: strip the first matching
conventional-commit marker (matched case-insensitively against the whole
lower-cased message), trim whitespace, then upper-case the first character. -/
def format_commit_message (message : String) : String :=
  let formatted : List Char :=
    match COMMIT_PREFIXES.find? (fun p => p.data.isPrefixOf (message.data.map Char.toLower)) with
    | some p => pyStrip (message.data.drop p.data.length)
    | none => message.data
  match formatted with
  | [] => String.mk []
  | c :: rest => String.mk (Char.toUpper c :: rest)

/-! ### Basic report builder (`core.py`, `generate_basic_changelog`) -/

/-- `item['hash'][:7]`. -/
def hash7 (c : CommitInfo) : String := String.mk (c.hash.data.take 7)

/-- One category section of the basic report: the `lines` list joined by
`'\n'.join(lines)`. -/
def sectionFor (title : String) (items : List CommitInfo) (verbose : Bool) : String :=
  String.intercalate "\n"
    (("## " ++ title ++ "\n") ::
      items.map fun item =>
        "- " ++ format_commit_message item.message
          ++ (if verbose then " (" ++ hash7 item ++ ")" else ""))

/-- The `<details>` diff-stat block appended when `diff_stat` is truthy. -/
def diffStatBlock (diff_stat : String) : String :=
  "\n<details>\n<summary>📈 文件变更详情</summary>\n\n```\n" ++ diff_stat ++ "\n```\n</details>\n"

/-- The basic-mode statistics footer. -/
def basicFooter (total_categorized : Nat) (fileCount : Nat) : String :=
  "\n\n---\n\n**变更统计**: " ++ toString total_categorized
    ++ " 项变更，涉及 " ++ toString fileCount ++ " 个文件\n"

/-- `generate_basic_changelog` of `core.py`. -/
def generate_basic_changelog (commits : List CommitInfo) (changed_files : List String)
    (diff_stat : String) (verbose : Bool) : String :=
  if commits.isEmpty then "⚠️ No changes found\n"
  else
    let categories := classify_commits commits
    let total_categorized := totalClassified categories
    let parts := CATEGORY_DISPLAY.filterMap fun p =>
      if (categories p.1).isEmpty then none
      else some (sectionFor p.2 (categories p.1) verbose)
    let changelog := String.intercalate "\n\n" parts
    let changelog := changelog ++ basicFooter total_categorized changed_files.length
    if diff_stat ≠ "" then changelog ++ diffStatBlock diff_stat else changelog

/-! ### Ignore filter (`git.py`, `should_ignore_file`) -/

/-- `fnmatch.fnmatch` for the glob features actually present in
`IGNORE_PATTERNS` (literals, `*`, `?`; no character classes occur there). -/
def globMatch : List Char → List Char → Bool
  | [], s => s.isEmpty
  | '*' :: ps, s =>
    globMatch ps s ||
      (match s with
       | [] => false
       | _ :: t => globMatch ('*' :: ps) t)
  | '?' :: _, [] => false
  | '?' :: ps, _ :: t => globMatch ps t
  | _ :: _, [] => false
  | p :: ps, c :: t => (p == c) && globMatch ps t
termination_by pat s => (s.length, pat.length)

/-- `os.path.basename`: the part after the last `/`. -/
def pyBasename (s : String) : String :=
  String.mk ((s.data.reverse.takeWhile fun c => c ≠ '/').reverse)

/-- `should_ignore_file` of `git.py`. -/
def should_ignore_file (filepath : String) : Bool :=
  IGNORE_PATTERNS.any fun pat =>
    globMatch pat.data filepath.data || globMatch pat.data (pyBasename filepath).data

/-! ### AI prompt construction (`ai/base.py`, `build_ai_prompt`) -/

/-- `build_ai_prompt` of `ai/base.py`: the f-string template with the commit
listing and the diff hard-truncated to `DEFAULT_MAX_DIFF_CHARS` characters. -/
def build_ai_prompt (from_ref to_ref : String) (commits : List CommitInfo)
    (diff : String) (diff_stat : String) : String :=
  let commit_text := String.intercalate "\n"
    (commits.map fun c =>
      "- [" ++ hash7 c ++ "] " ++ c.message ++ " (by " ++ c.author ++ ", " ++ c.date ++ ")")
  let diff_content :=
    if diff.data.length > DEFAULT_MAX_DIFF_CHARS then String.mk (diff.data.take DEFAULT_MAX_DIFF_CHARS)
    else diff
  "请分析以下代码变更，生成版本更新摘要：\n\n## 版本信息\n从: " ++ from_ref
    ++ "\n到: " ++ to_ref
    ++ "\n\n## 提交记录 (" ++ toString commits.length ++ "个提交)\n" ++ commit_text
    ++ "\n\n## 文件变更统计\n" ++ diff_stat
    ++ "\n\n## 代码差异 (Git Diff)\n```diff\n" ++ diff_content
    ++ "\n```\n\n请根据以上信息，生成结构清晰的版本更新摘要。重点关注：\n1. 实际的功能变化（不要简单复述commit message）\n2. 用户可感知的改进\n3. 修复的问题\n4. 技术层面的优化\n\n注意合并相关的变更，使输出简洁有序。"

/-! ### Pipeline (`core.py`, `generate_ai_changelog` and `generate_changelog`)

The git subprocess and the AI HTTP service are external collaborators: their
responses are inputs (`GitEnv`, `callAi`), and the calls the pipeline issues
are recorded in a `GitCall` event list.  `callAi prompt = none` embeds every
way `call_ai_api` returns `None` (unknown provider, missing key, HTTP /
network / parse failure); `some ""` embeds an empty response body. -/

/-- The external calls the pipeline can issue, in issue order. -/
inductive GitCall where
  | commits
  | diffFiles
  | diffContent
  | diffStat
  | aiCall
deriving DecidableEq

/-- The collaborator responses for one pipeline run: the values returned by
`get_git_commits`, `get_git_diff_files(include_ignored=True)`,
`get_git_diff`, `get_git_diff_stat`. -/
structure GitEnv where
  commits : List CommitInfo
  allFiles : List String
  diff : String
  diffStat : String

/-- `generate_ai_changelog` of `core.py`.  Dry-run prints diagnostics to the
console (a side channel, not part of the document) and returns the sentinel
without calling the AI; live mode issues exactly one AI call. -/
def generate_ai_changelog (from_ref to_ref : String) (commits : List CommitInfo)
    (diff : String) (diff_stat : String)
    (callAi : String → Option String) (dry_run : Bool) :
    Option String × List GitCall :=
  if commits.isEmpty then (none, [])
  else
    let prompt := build_ai_prompt from_ref to_ref commits diff diff_stat
    if dry_run then (some "[DRY-RUN Mode - AI not called]", [])
    else (callAi prompt, [GitCall.aiCall])

/-- The header assembled by `generate_changelog` (title, range, date span). -/
def changelogHeader (from_ref to_ref : String) (commits : List CommitInfo) : String :=
  let header := "# 更新日志\n\n**" ++ from_ref ++ " → " ++ to_ref ++ "**\n\n"
  match commits with
  | [] => header
  | c0 :: rest =>
    let first_date := ((c0 :: rest).getLast (List.cons_ne_nil c0 rest)).date
    let last_date := c0.date
    let date_info :=
      if first_date = last_date then "📅 发布日期: " ++ last_date
      else "📅 变更周期: " ++ first_date ++ " ~ " ++ last_date
    header ++ date_info ++ "\n\n"

/-- The AI-mode statistics footer (`len(commits)` commits, not classified). -/
def aiFooter (commitCount fileCount : Nat) : String :=
  "\n\n---\n\n**变更统计**: " ++ toString commitCount
    ++ " 次提交，涉及 " ++ toString fileCount ++ " 个文件\n"

/-- `generate_changelog` of `core.py`, returning the document together with
the list of external calls issued. -/
def generate_changelog (env : GitEnv) (callAi : String → Option String)
    (from_ref to_ref : String) (use_ai : Bool) (verbose : Bool) (dry_run : Bool) :
    String × List GitCall :=
  let commits := env.commits
  if commits.isEmpty then
    ("# 更新日志\n\n**" ++ from_ref ++ " → " ++ to_ref ++ "**\n\n⚠️ 未发现任何变更\n",
     [GitCall.commits])
  else
    let all_files := env.allFiles
    let changed_files := all_files.filter fun f => !should_ignore_file f
    let diff := env.diff
    let diff_stat := env.diffStat
    let baseCalls := [GitCall.commits, GitCall.diffFiles, GitCall.diffContent, GitCall.diffStat]
    let header := changelogHeader from_ref to_ref commits
    if use_ai || dry_run then
      let ai := generate_ai_changelog from_ref to_ref commits diff diff_stat callAi dry_run
      if dry_run then
        (header ++ "\n[DRY-RUN Mode - Debug output above, no content generated]\n",
         baseCalls ++ ai.2)
      else
        match ai.1 with
        | some s =>
          if s ≠ "" then
            let content :=
              if diff_stat ≠ "" then
                s ++ aiFooter commits.length changed_files.length ++ diffStatBlock diff_stat
              else s
            (header ++ content, baseCalls ++ ai.2)
          else
            (header ++ generate_basic_changelog commits changed_files diff_stat verbose,
             baseCalls ++ ai.2)
        | none =>
          (header ++ generate_basic_changelog commits changed_files diff_stat verbose,
           baseCalls ++ ai.2)
    else
      (header ++ generate_basic_changelog commits changed_files diff_stat verbose, baseCalls)

/-! ### Webhook truncation (`notify.py`, `truncate_content_for_wecom`) -/

/-- UTF-8 byte length of a code-point sequence (`len(s.encode('utf-8'))`). -/
def utf8Len (l : List Char) : Nat := (l.map Char.utf8Size).sum

/-- Python's `s[:j]` for a possibly negative `j`. -/
def pyTakeInt (l : List Char) (j : Int) : List Char :=
  if 0 ≤ j then l.take j.toNat else l.take ((l.length : Int) + j).toNat

theorem pyTakeInt_length_lt (l : List Char) (hl : l ≠ []) :
    (pyTakeInt l ((l.length : Int) - 100)).length < l.length := by
  have hpos : 0 < l.length := List.length_pos.mpr hl
  unfold pyTakeInt
  by_cases h : (0 : Int) ≤ (l.length : Int) - 100
  · rw [if_pos h]
    have h100 : 100 ≤ l.length := by
      omega
    have : ((l.length : Int) - 100).toNat = l.length - 100 := by
      omega
    rw [this]
    simp only [List.length_take]
    omega
  · rw [if_neg h]
    have hlt : l.length < 100 := by omega
    have : ((l.length : Int) + ((l.length : Int) - 100)).toNat < l.length := by
      omega
    simp only [List.length_take]
    omega

/-- The `while len(truncated.encode('utf-8')) > target_bytes:` loop of
`truncate_content_for_wecom`, chopping 100 characters from the end per
iteration. -/
def wecomShrink (l : List Char) (target : Nat) : List Char :=
  if utf8Len l ≤ target then l
  else wecomShrink (pyTakeInt l ((l.length : Int) - 100)) target
termination_by l.length
decreasing_by
  rename_i h
  apply pyTakeInt_length_lt
  intro hnil
  subst hnil
  simp [utf8Len] at h

/-- `s.rfind(c)`: index of the last occurrence, `none` for Python's `-1`. -/
def rfindIdx (c : Char) : List Char → Option Nat
  | [] => none
  | a :: t =>
    match rfindIdx c t with
    | some i => some (i + 1)
    | none => if a == c then some 0 else none

/-- The fixed truncation notice appended by `truncate_content_for_wecom`. -/
def wecomNotice : List Char := "\n\n⚠️ 内容过长已截断，完整内容请查看控制台或文件输出".data

/-- `truncate_content_for_wecom` of `notify.py` on code-point sequences.
(`max_bytes - 100` is `Nat` subtraction; it agrees with the source whenever
`max_bytes ≥ 100`, and every caller uses the default `4096`.) -/
def truncate_content_for_wecom (content : List Char) (max_bytes : Nat := 4096) : List Char :=
  if utf8Len content ≤ max_bytes then content
  else
    let target_bytes := max_bytes - 100
    let truncated := wecomShrink content target_bytes
    let truncated2 :=
      match rfindIdx '\n' truncated with
      | some i => if truncated.length / 2 < i then truncated.take i else truncated
      | none => truncated
    truncated2 ++ wecomNotice

/-! ### Further classifier lemmas -/

theorem head_append_of_some {α : Type} (l1 l2 : List α) (a : α) (h : l1.head? = some a) :
    (l1 ++ l2).head? = some a := by
  cases l1 with
  | nil => cases h
  | cons b t => simpa using h

theorem list_sum_map_add {α : Type} (l : List α) (f g : α → Nat) :
    (l.map fun x => f x + g x).sum = (l.map f).sum + (l.map g).sum := by
  induction l with
  | nil => simp
  | cons a t ih => simp [ih]; omega

theorem indicator_sum_le_one (c : CommitInfo) :
    (CATEGORY_DISPLAY.map fun p => if assignCat c = some p.1 then 1 else 0).sum ≤ 1 := by
  rcases h : assignCat c with _ | k
  · simp [CATEGORY_DISPLAY, h]
  · cases k <;> simp [CATEGORY_DISPLAY, h]

theorem filter_cat_sum_le (commits : List CommitInfo) :
    (CATEGORY_DISPLAY.map fun p =>
      (commits.filter fun c => decide (assignCat c = some p.1)).length).sum
      ≤ commits.length := by
  induction commits with
  | nil => simp
  | cons c rest ih =>
    have hstep : (CATEGORY_DISPLAY.map fun p =>
        ((c :: rest).filter fun x => decide (assignCat x = some p.1)).length).sum
        = (CATEGORY_DISPLAY.map fun p => if assignCat c = some p.1 then 1 else 0).sum
          + (CATEGORY_DISPLAY.map fun p =>
              (rest.filter fun x => decide (assignCat x = some p.1)).length).sum := by
      rw [← list_sum_map_add]
      congr 1
      apply List.map_congr_left
      intro p _
      rw [List.filter_cons]
      by_cases h : assignCat c = some p.1
      · simp [h]
        omega
      · simp [h]
    rw [hstep]
    have := indicator_sum_le_one c
    simp only [List.length_cons]
    omega

theorem totalClassified_le (commits : List CommitInfo) :
    totalClassified (classify_commits commits) ≤ commits.length := by
  have hchar : totalClassified (classify_commits commits)
      = (CATEGORY_DISPLAY.map fun p =>
          (commits.filter fun c => decide (assignCat c = some p.1)).length).sum := by
    unfold totalClassified
    congr 1
    exact List.map_congr_left fun p _ => by rw [classify_commits_get]
  rw [hchar]
  exact filter_cat_sum_le commits

/-- Claim C1: `classify_commits` is a partition-or-drop.  A commit whose
lower-cased message contains a skip keyword lands in no category; every
other commit lands in exactly one category (`others` when no keyword list
matches); skipped commits together with the category members exhaust the
input set; and the total classified count is at most the input count. -/
theorem classify_commits_partition_or_drop (commits : List CommitInfo) :
    (∀ c ∈ commits, isSkippedCommit c = true → ∀ k, c ∉ classify_commits commits k) ∧
    (∀ c ∈ commits, isSkippedCommit c = false →
      ∃ k, c ∈ classify_commits commits k ∧
        ∀ k', c ∈ classify_commits commits k' → k' = k) ∧
    (∀ c ∈ commits, isSkippedCommit c = false →
      firstMatchCat (pyLower c.message) = none → c ∈ classify_commits commits Cat.others) ∧
    (∀ c, c ∈ commits ↔
      (c ∈ commits.filter fun x => isSkippedCommit x) ∨ ∃ k, c ∈ classify_commits commits k) ∧
    totalClassified (classify_commits commits) ≤ commits.length := by
  refine ⟨?_, ?_, ?_, ?_, totalClassified_le commits⟩
  · intro c _ hskip k hmem
    rcases (mem_classify_iff commits k c).mp hmem with ⟨_, hassign⟩
    rw [assignCat_of_skipped c hskip] at hassign
    exact Option.noConfusion hassign
  · intro c hc hskip
    obtain ⟨k, hk⟩ := assignCat_isSome_of_not_skipped c hskip
    refine ⟨k, (mem_classify_iff commits k c).mpr ⟨hc, hk⟩, ?_⟩
    intro k' hmem'
    rcases (mem_classify_iff commits k' c).mp hmem' with ⟨_, hassign'⟩
    rw [hk] at hassign'
    exact (Option.some.inj hassign').symm
  · intro c hc hskip hnone
    apply (mem_classify_iff commits Cat.others c).mpr
    refine ⟨hc, ?_⟩
    unfold assignCat
    unfold isSkippedCommit at hskip
    simp [hskip, hnone]
  · intro c
    constructor
    · intro hc
      rcases hsk : isSkippedCommit c with _ | _
      · obtain ⟨k, hk⟩ := assignCat_isSome_of_not_skipped c hsk
        exact Or.inr ⟨k, (mem_classify_iff commits k c).mpr ⟨hc, hk⟩⟩
      · exact Or.inl (List.mem_filter.mpr ⟨hc, hsk⟩)
    · intro h
      rcases h with h | ⟨k, hk⟩
      · exact (List.mem_filter.mp h).1
      · exact ((mem_classify_iff commits k c).mp hk).1

/-! ### Claim C4: classification order -/

/-- The keyword list `COMMIT_KEYWORDS` holds for a category (empty for
`others`, which has no keywords). -/
def catKws (k : Cat) : List String :=
  ((COMMIT_KEYWORDS.find? fun p => decide (p.1 = k)).map (·.2)).getD []

/-- Claim C4 counterexample: the commit message `"css readme"` contains a
`styling` keyword (`css`) and a `documentation` keyword (`readme`), no skip
keyword and no keyword of any earlier category, yet `classify_commits` puts
it in `documentation`, not in `styling`: the match loop follows the
`COMMIT_KEYWORDS` declaration order, where `documentation` is declared
before `styling`, not the `Category` display enumeration order. -/
theorem classify_order_counterexample :
    classify_commits [⟨"h", "a", "e", "2024-01-01", "css readme"⟩] Cat.styling = []
      ∧ classify_commits [⟨"h", "a", "e", "2024-01-01", "css readme"⟩] Cat.documentation
          = [⟨"h", "a", "e", "2024-01-01", "css readme"⟩] := by
  constructor <;> rfl

/-- Claim C4 amended: classification first-match order follows the
`COMMIT_KEYWORDS` declaration order (`new_features, bug_fixes, performance,
refactoring, documentation, styling, configuration`), in which
`documentation` precedes `styling`: a commit whose message contains no skip
keyword, a keyword of both the styling and the documentation lists, and no
keyword of `new_features`, `bug_fixes`, `performance` or `refactoring`, is
assigned to `documentation` (declared earlier there) and not to `styling`. -/
theorem classify_order_follows_keyword_decl (commits : List CommitInfo) (c : CommitInfo)
    (hmem : c ∈ commits)
    (hskip : isSkippedCommit c = false)
    (_hsty : ((catKws .styling).any fun kw => containsSub kw.data (pyLower c.message)) = true)
    (hdoc : ((catKws .documentation).any fun kw => containsSub kw.data (pyLower c.message)) = true)
    (hnf : ((catKws .new_features).any fun kw => containsSub kw.data (pyLower c.message)) = false)
    (hbf : ((catKws .bug_fixes).any fun kw => containsSub kw.data (pyLower c.message)) = false)
    (hpf : ((catKws .performance).any fun kw => containsSub kw.data (pyLower c.message)) = false)
    (hrf : ((catKws .refactoring).any fun kw => containsSub kw.data (pyLower c.message)) = false) :
    c ∈ classify_commits commits Cat.documentation
      ∧ c ∉ classify_commits commits Cat.styling := by
  have hfirst : firstMatchCat (pyLower c.message) = some Cat.documentation := by
    have hnf' : ((["新增", "添加", "add", "feat", "feature", "功能", "new", "implement", "支持"] : List String).any
        fun kw => containsSub kw.data (pyLower c.message)) = false := hnf
    have hbf' : ((["修复", "修正", "fix", "bug", "问题", "issue", "错误", "resolve", "hotfix"] : List String).any
        fun kw => containsSub kw.data (pyLower c.message)) = false := hbf
    have hpf' : ((["优化", "性能", "perf", "performance", "提升", "改进", "improve", "optimize", "加速"] : List String).any
        fun kw => containsSub kw.data (pyLower c.message)) = false := hpf
    have hrf' : ((["重构", "refactor", "调整", "重写", "rewrite", "restructure", "改造"] : List String).any
        fun kw => containsSub kw.data (pyLower c.message)) = false := hrf
    have hdoc' : ((["文档", "doc", "documentation", "注释", "comment", "readme", "changelog"] : List String).any
        fun kw => containsSub kw.data (pyLower c.message)) = true := hdoc
    unfold firstMatchCat COMMIT_KEYWORDS
    simp only [List.find?, hnf', hbf', hpf', hrf', hdoc']
    rfl
  have hassign : assignCat c = some Cat.documentation := by
    unfold assignCat
    unfold isSkippedCommit at hskip
    simp [hskip, hfirst]
  constructor
  · exact (mem_classify_iff commits Cat.documentation c).mpr ⟨hmem, hassign⟩
  · intro hmemsty
    rcases (mem_classify_iff commits Cat.styling c).mp hmemsty with ⟨_, hassign'⟩
    rw [hassign] at hassign'
    exact Cat.noConfusion (Option.some.inj hassign')

/-- Claim C4 amended, witness: the `"css readme"` commit satisfies every
hypothesis and is classified as `documentation`. -/
theorem classify_order_follows_keyword_decl_witness :
    (⟨"h", "a", "e", "2024-01-01", "css readme"⟩ : CommitInfo)
        ∈ classify_commits [⟨"h", "a", "e", "2024-01-01", "css readme"⟩] Cat.documentation
      ∧ (⟨"h", "a", "e", "2024-01-01", "css readme"⟩ : CommitInfo)
        ∉ classify_commits [⟨"h", "a", "e", "2024-01-01", "css readme"⟩] Cat.styling :=
  classify_order_follows_keyword_decl
    [⟨"h", "a", "e", "2024-01-01", "css readme"⟩] ⟨"h", "a", "e", "2024-01-01", "css readme"⟩
    (by decide) (by decide) (by decide) (by decide) (by decide) (by decide) (by decide)
    (by decide)

/-! ### Claim C9: formatter idempotence -/

theorem format_fixes_capitalized_prefixfree (m : String)
    (hpre : ∀ p ∈ COMMIT_PREFIXES, p.data.isPrefixOf (m.data.map Char.toLower) = false)
    (hcap : ∀ c ∈ m.data.take 1, Char.toUpper c = c) :
    format_commit_message m = m := by
  have hfind : COMMIT_PREFIXES.find?
      (fun p => p.data.isPrefixOf (m.data.map Char.toLower)) = none := by
    apply List.find?_eq_none.mpr
    intro p hp
    simp [hpre p hp]
  unfold format_commit_message
  rw [hfind]
  rcases hm : m.data with _ | ⟨c, rest⟩
  · simp only []
    cases m with
    | mk l =>
      simp only [String.data] at hm
      subst hm
      rfl
  · have hc : Char.toUpper c = c := by
      apply hcap
      rw [hm]
      simp
    simp only [hc]
    cases m with
    | mk l =>
      simp only [String.data] at hm
      subst hm
      rfl

/-- Claim C9: message formatting is idempotent on already-capitalized,
prefix-free input: when no conventional-commit marker of `COMMIT_PREFIXES`
starts the lower-cased message and the first character (if any) is fixed by
upper-casing, `format_commit_message (format_commit_message m)
= format_commit_message m`. -/
theorem format_commit_message_idempotent (m : String)
    (hpre : ∀ p ∈ COMMIT_PREFIXES, p.data.isPrefixOf (m.data.map Char.toLower) = false)
    (hcap : ∀ c ∈ m.data.take 1, Char.toUpper c = c) :
    format_commit_message (format_commit_message m) = format_commit_message m := by
  rw [format_fixes_capitalized_prefixfree m hpre hcap]
  exact format_fixes_capitalized_prefixfree m hpre hcap

/-- Claim C9 witness: `"Hello world"` is prefix-free and capitalized, and
the formatter is idempotent on it. -/
theorem format_commit_message_idempotent_witness :
    format_commit_message (format_commit_message "Hello world")
      = format_commit_message "Hello world" :=
  format_commit_message_idempotent "Hello world" (by decide) (by decide)

/-! ### Claim C10: all commits skipped -/

theorem classify_all_skipped (commits : List CommitInfo)
    (hall : ∀ c ∈ commits, isSkippedCommit c = true) (k : Cat) :
    classify_commits commits k = [] := by
  rw [classify_commits_get]
  apply List.filter_eq_nil_iff.mpr
  intro c hc
  rw [assignCat_of_skipped c (hall c hc)]
  simp

/-- Claim C10: for a non-empty commit list in which every commit is skipped,
`generate_basic_changelog` does not return the no-changes notice: it returns
a document with no category section at all, whose body is the statistics
footer reporting `0` classified changes, plus the collapsible diff-stat
block exactly when the diff statistics string is non-empty. -/
theorem generate_basic_changelog_all_skipped (commits : List CommitInfo)
    (changed_files : List String) (diff_stat : String) (verbose : Bool)
    (hne : commits ≠ [])
    (hall : ∀ c ∈ commits, isSkippedCommit c = true) :
    generate_basic_changelog commits changed_files diff_stat verbose
      = (if diff_stat ≠ "" then
          basicFooter 0 changed_files.length ++ diffStatBlock diff_stat
         else basicFooter 0 changed_files.length)
    ∧ generate_basic_changelog commits changed_files diff_stat verbose
        ≠ "⚠️ No changes found\n" := by
  have hcat : ∀ k, classify_commits commits k = [] := classify_all_skipped commits hall
  have htot : totalClassified (classify_commits commits) = 0 := by
    unfold totalClassified
    simp [CATEGORY_DISPLAY, hcat]
  have hbody : generate_basic_changelog commits changed_files diff_stat verbose
      = (if diff_stat ≠ "" then
          basicFooter 0 changed_files.length ++ diffStatBlock diff_stat
         else basicFooter 0 changed_files.length) := by
    unfold generate_basic_changelog
    rw [if_neg (by simpa using hne)]
    simp only [htot, hcat, CATEGORY_DISPLAY, List.filterMap, List.isEmpty_nil]
    by_cases hd : diff_stat = "" <;> simp [hd, String.intercalate]
  refine ⟨hbody, ?_⟩
  rw [hbody]
  have hfoot : (basicFooter 0 changed_files.length).data.head? = some '\n' := by
    unfold basicFooter
    rw [String.data_append, String.data_append, String.data_append, String.data_append]
    rfl
  have key : ∀ (s : String), s.data.head? = some '\n' → s ≠ "⚠️ No changes found\n" := by
    intro s hs heq
    rw [heq] at hs
    exact absurd hs (by decide)
  by_cases hd : diff_stat = ""
  · rw [if_neg (by simp [hd])]
    exact key _ hfoot
  · rw [if_pos hd]
    apply key
    rw [String.data_append]
    exact head_append_of_some _ _ _ hfoot

/-- Claim C10 witness: one merge commit (skipped), two changed files, empty
diff statistics. -/
theorem generate_basic_changelog_all_skipped_witness :
    generate_basic_changelog [⟨"h", "a", "e", "2024-01-01", "Merge branch main"⟩]
        ["a.py", "b.py"] "" false
      = (if ("" : String) ≠ "" then
          basicFooter 0 (["a.py", "b.py"] : List String).length ++ diffStatBlock ""
         else basicFooter 0 (["a.py", "b.py"] : List String).length)
    ∧ generate_basic_changelog [⟨"h", "a", "e", "2024-01-01", "Merge branch main"⟩]
        ["a.py", "b.py"] "" false ≠ "⚠️ No changes found\n" :=
  generate_basic_changelog_all_skipped
    [⟨"h", "a", "e", "2024-01-01", "Merge branch main"⟩] ["a.py", "b.py"] "" false
    (by decide) (by decide)

/-! ### Claim C7: empty range short-circuits -/

/-- Claim C7: when the VCS collaborator returns no commits, the pipeline
returns exactly the range header plus the no-changes notice and issues no
further external call: the call trace is the single commit retrieval, with
no changed-file, diff, diff-stat or AI call, and no classified body. -/
theorem empty_range_minimal_doc (env : GitEnv) (callAi : String → Option String)
    (from_ref to_ref : String) (use_ai verbose dry_run : Bool)
    (hempty : env.commits = []) :
    generate_changelog env callAi from_ref to_ref use_ai verbose dry_run
      = ("# 更新日志\n\n**" ++ from_ref ++ " → " ++ to_ref ++ "**\n\n⚠️ 未发现任何变更\n",
         [GitCall.commits]) := by
  unfold generate_changelog
  rw [hempty]
  rfl

/-- Claim C7 witness: identical refs with an empty commit sequence. -/
theorem empty_range_minimal_doc_witness :
    generate_changelog ⟨[], [], "", ""⟩ (fun _ => none) "v1" "v1" false false false
      = ("# 更新日志\n\n**v1 → v1**\n\n⚠️ 未发现任何变更\n", [GitCall.commits]) :=
  empty_range_minimal_doc ⟨[], [], "", ""⟩ (fun _ => none) "v1" "v1" false false false rfl

/-! ### Claim C6: dry-run never calls the AI -/

/-- Claim C6: in dry-run mode with a non-empty commit list, no AI call is
issued, the document is the header plus the fixed placeholder body, and it
is identical for every AI collaborator behavior (so the real AI content
never appears in it). -/
theorem dry_run_never_calls_ai (env : GitEnv) (callAi1 callAi2 : String → Option String)
    (from_ref to_ref : String) (use_ai verbose : Bool)
    (hne : env.commits ≠ []) :
    GitCall.aiCall ∉ (generate_changelog env callAi1 from_ref to_ref use_ai verbose true).2
    ∧ (generate_changelog env callAi1 from_ref to_ref use_ai verbose true).1
        = changelogHeader from_ref to_ref env.commits
          ++ "\n[DRY-RUN Mode - Debug output above, no content generated]\n"
    ∧ (generate_changelog env callAi1 from_ref to_ref use_ai verbose true).1
        = (generate_changelog env callAi2 from_ref to_ref use_ai verbose true).1 := by
  have h1 : env.commits.isEmpty = false := by
    rcases henv : env.commits with _ | _
    · exact absurd henv hne
    · rfl
  unfold generate_changelog generate_ai_changelog
  simp [h1]

/-- Claim C6 witness: three commits, two collaborator behaviors (one
returning a summary, one failing); the dry-run document is the same. -/
theorem dry_run_never_calls_ai_witness :
    GitCall.aiCall ∉ (generate_changelog
        ⟨[⟨"h1", "a", "e", "2024-01-02", "feat: x"⟩,
          ⟨"h2", "a", "e", "2024-01-01", "fix: y"⟩,
          ⟨"h3", "a", "e", "2024-01-01", "docs: z"⟩], [], "d", "s"⟩
        (fun _ => some "REAL AI CONTENT") "v1" "v2" true false true).2
    ∧ (generate_changelog
        ⟨[⟨"h1", "a", "e", "2024-01-02", "feat: x"⟩,
          ⟨"h2", "a", "e", "2024-01-01", "fix: y"⟩,
          ⟨"h3", "a", "e", "2024-01-01", "docs: z"⟩], [], "d", "s"⟩
        (fun _ => some "REAL AI CONTENT") "v1" "v2" true false true).1
        = changelogHeader "v1" "v2"
            [⟨"h1", "a", "e", "2024-01-02", "feat: x"⟩,
             ⟨"h2", "a", "e", "2024-01-01", "fix: y"⟩,
             ⟨"h3", "a", "e", "2024-01-01", "docs: z"⟩]
          ++ "\n[DRY-RUN Mode - Debug output above, no content generated]\n"
    ∧ (generate_changelog
        ⟨[⟨"h1", "a", "e", "2024-01-02", "feat: x"⟩,
          ⟨"h2", "a", "e", "2024-01-01", "fix: y"⟩,
          ⟨"h3", "a", "e", "2024-01-01", "docs: z"⟩], [], "d", "s"⟩
        (fun _ => some "REAL AI CONTENT") "v1" "v2" true false true).1
        = (generate_changelog
            ⟨[⟨"h1", "a", "e", "2024-01-02", "feat: x"⟩,
              ⟨"h2", "a", "e", "2024-01-01", "fix: y"⟩,
              ⟨"h3", "a", "e", "2024-01-01", "docs: z"⟩], [], "d", "s"⟩
            (fun _ => none) "v1" "v2" true false true).1 :=
  dry_run_never_calls_ai
    ⟨[⟨"h1", "a", "e", "2024-01-02", "feat: x"⟩,
      ⟨"h2", "a", "e", "2024-01-01", "fix: y"⟩,
      ⟨"h3", "a", "e", "2024-01-01", "docs: z"⟩], [], "d", "s"⟩
    (fun _ => some "REAL AI CONTENT") (fun _ => none) "v1" "v2" true false (by decide)

/-! ### Claim C2: silent fallback to basic mode -/

/-- Claim C2: in AI mode, whenever the AI collaborator yields no usable
result (`none` for unknown provider / missing key / network or HTTP / parse
failure, or an empty response), the returned document is byte-for-byte the
basic-mode document on the same inputs; in particular it contains no error
text beyond the basic output (the fallback notice goes to the console, a
side channel). -/
theorem ai_failure_falls_back_to_basic (env : GitEnv) (callAi : String → Option String)
    (from_ref to_ref : String) (verbose : Bool)
    (hne : env.commits ≠ [])
    (hfail : ∀ s,
      callAi (build_ai_prompt from_ref to_ref env.commits env.diff env.diffStat) = some s →
        s = "") :
    (generate_changelog env callAi from_ref to_ref true verbose false).1
      = (generate_changelog env callAi from_ref to_ref false verbose false).1 := by
  have h1 : env.commits.isEmpty = false := by
    rcases henv : env.commits with _ | _
    · exact absurd henv hne
    · rfl
  unfold generate_changelog generate_ai_changelog
  rcases hai : callAi (build_ai_prompt from_ref to_ref env.commits env.diff env.diffStat)
    with _ | s
  · simp [h1, hai]
  · have hs : s = "" := hfail s hai
    subst hs
    simp [h1, hai]

/-- Claim C2 witness: a failing collaborator (`none`) over one commit; AI
mode output equals basic mode output. -/
theorem ai_failure_falls_back_to_basic_witness :
    (generate_changelog ⟨[⟨"abc", "A", "a@b", "2024-01-01", "fix: crash"⟩], ["m.py"], "d", "st"⟩
        (fun _ => none) "v1" "v2" true false false).1
      = (generate_changelog ⟨[⟨"abc", "A", "a@b", "2024-01-01", "fix: crash"⟩], ["m.py"], "d", "st"⟩
          (fun _ => none) "v1" "v2" false false false).1 :=
  ai_failure_falls_back_to_basic
    ⟨[⟨"abc", "A", "a@b", "2024-01-01", "fix: crash"⟩], ["m.py"], "d", "st"⟩
    (fun _ => none) "v1" "v2" false (by decide) (fun s h => Option.noConfusion h)

/-! ### Claim C3: AI-mode statistics footer -/

/-- Claim C3 counterexample: a successful AI result with an empty
diff-statistics string yields a document with no statistics footer at all —
the footer append is guarded by `if diff_stat:`. -/
theorem ai_footer_needs_diffstat_counterexample :
    (generate_changelog ⟨[⟨"abc", "A", "a@b", "2024-01-01", "hello"⟩], [], "", ""⟩
        (fun _ => some "AI SUMMARY") "v1" "v2" true false false).1
      = "# 更新日志\n\n**v1 → v2**\n\n📅 发布日期: 2024-01-01\n\nAI SUMMARY"
    ∧ containsSub "变更统计".data
        ((generate_changelog ⟨[⟨"abc", "A", "a@b", "2024-01-01", "hello"⟩], [], "", ""⟩
          (fun _ => some "AI SUMMARY") "v1" "v2" true false false).1).data = false := by
  constructor
  · rfl
  · decide

/-- Claim C3 amended: in AI mode with a non-empty commit list and a
non-empty AI result, the body is the AI result followed by the statistics
footer (total commit count and changed-file count) and the diff-stat block
— but only when the diff-statistics string is non-empty; when it is empty
the body is the AI result alone, with no footer. -/
theorem ai_success_body (env : GitEnv) (callAi : String → Option String)
    (from_ref to_ref : String) (verbose : Bool) (s : String)
    (hne : env.commits ≠ [])
    (hai : callAi (build_ai_prompt from_ref to_ref env.commits env.diff env.diffStat) = some s)
    (hs : s ≠ "") :
    (generate_changelog env callAi from_ref to_ref true verbose false).1
      = changelogHeader from_ref to_ref env.commits
        ++ (if env.diffStat ≠ "" then
              s ++ aiFooter env.commits.length
                    (env.allFiles.filter fun f => !should_ignore_file f).length
                ++ diffStatBlock env.diffStat
            else s) := by
  have h1 : env.commits.isEmpty = false := by
    rcases henv : env.commits with _ | _
    · exact absurd henv hne
    · rfl
  unfold generate_changelog generate_ai_changelog
  simp only [h1, Bool.false_eq_true, if_false, Bool.or_false, if_true, hai]
  by_cases hd : env.diffStat = "" <;> simp [hd, hs]

/-- Claim C3 amended, witness: non-empty diff statistics produce the footer
after the AI result. -/
theorem ai_success_body_witness :
    (generate_changelog ⟨[⟨"abc", "A", "a@b", "2024-01-01", "hello"⟩], [], "", "1 file"⟩
        (fun _ => some "AI SUMMARY") "v1" "v2" true false false).1
      = changelogHeader "v1" "v2" [⟨"abc", "A", "a@b", "2024-01-01", "hello"⟩]
        ++ (if ("1 file" : String) ≠ "" then
              "AI SUMMARY" ++ aiFooter ([⟨"abc", "A", "a@b", "2024-01-01", "hello"⟩] : List CommitInfo).length
                    ((([] : List String)).filter fun f => !should_ignore_file f).length
                ++ diffStatBlock "1 file"
            else "AI SUMMARY") :=
  ai_success_body ⟨[⟨"abc", "A", "a@b", "2024-01-01", "hello"⟩], [], "", "1 file"⟩
    (fun _ => some "AI SUMMARY") "v1" "v2" false "AI SUMMARY"
    (by decide) rfl (by decide)

/-! ### Claim C5: diff truncation in the AI prompt -/

/-- Claim C5 counterexample: the prompt built from a 50001-character diff is
byte-for-byte identical to the prompt built from its first 50000 characters,
so no visible truncation notice marks the cut point — the cutoff is silent.
(The only diff truncation notice in the program is the line-count one of
`get_git_diff`, a different bound in a different unit.) -/
theorem build_ai_prompt_truncation_silent_counterexample :
    build_ai_prompt "v1" "v2" [] (String.mk (List.replicate 50001 'a')) ""
      = build_ai_prompt "v1" "v2" [] (String.mk (List.replicate 50000 'a')) "" := by
  unfold build_ai_prompt
  norm_num [DEFAULT_MAX_DIFF_CHARS, List.take_replicate]

/-- Claim C5 amended: for every diff longer than the 50000-character budget,
`build_ai_prompt` embeds exactly the first 50000 characters (a hard
character cutoff, never an error), silently: the prompt equals the one built
from the pre-truncated diff, with no truncation notice at the cut point. -/
theorem build_ai_prompt_hard_cutoff (from_ref to_ref : String) (commits : List CommitInfo)
    (diff : String) (diff_stat : String)
    (hlong : diff.data.length > DEFAULT_MAX_DIFF_CHARS) :
    build_ai_prompt from_ref to_ref commits diff diff_stat
      = build_ai_prompt from_ref to_ref commits
          (String.mk (diff.data.take DEFAULT_MAX_DIFF_CHARS)) diff_stat := by
  unfold build_ai_prompt
  rw [if_pos hlong]
  have hlen : ¬ ((String.mk (diff.data.take DEFAULT_MAX_DIFF_CHARS)).data.length
      > DEFAULT_MAX_DIFF_CHARS) := by
    simp only [String.data, List.length_take]
    omega
  rw [if_neg hlen]

/-- Claim C5 amended, witness: a 50001-character diff. -/
theorem build_ai_prompt_hard_cutoff_witness :
    build_ai_prompt "v1" "v2" [] (String.mk (List.replicate 50001 'a')) ""
      = build_ai_prompt "v1" "v2" []
          (String.mk ((String.mk (List.replicate 50001 'a')).data.take DEFAULT_MAX_DIFF_CHARS)) "" :=
  build_ai_prompt_hard_cutoff "v1" "v2" [] (String.mk (List.replicate 50001 'a')) ""
    (by show (List.replicate 50001 'a').length > DEFAULT_MAX_DIFF_CHARS
        rw [List.length_replicate]
        norm_num [DEFAULT_MAX_DIFF_CHARS])

/-! ### Claim C8: webhook byte-cap truncation -/

theorem utf8Len_append (l1 l2 : List Char) :
    utf8Len (l1 ++ l2) = utf8Len l1 + utf8Len l2 := by
  simp [utf8Len]

theorem utf8Len_take_le (l : List Char) (n : Nat) :
    utf8Len (l.take n) ≤ utf8Len l := by
  conv_rhs => rw [← List.take_append_drop n l]
  rw [utf8Len_append]
  omega

theorem utf8Len_replicate (n : Nat) (c : Char) :
    utf8Len (List.replicate n c) = n * c.utf8Size := by
  induction n with
  | zero => simp [utf8Len]
  | succ m ih =>
    rw [List.replicate_succ]
    simp only [utf8Len, List.map_cons, List.sum_cons] at ih ⊢
    rw [Nat.succ_mul]
    omega

theorem wecomShrink_le (l : List Char) (target : Nat) :
    utf8Len (wecomShrink l target) ≤ target := by
  by_cases h : utf8Len l ≤ target
  · rw [wecomShrink, if_pos h]
    exact h
  · rw [wecomShrink, if_neg h]
    exact wecomShrink_le (pyTakeInt l ((l.length : Int) - 100)) target
termination_by l.length
decreasing_by
  apply pyTakeInt_length_lt
  intro hnil
  subst hnil
  simp [utf8Len] at h

theorem pyTakeInt_leading (l : List Char) (j : Int) : pyTakeInt l j <+: l := by
  unfold pyTakeInt
  by_cases h : 0 ≤ j
  · rw [if_pos h]
    exact List.take_prefix _ l
  · rw [if_neg h]
    exact List.take_prefix _ l

theorem wecomShrink_leading (l : List Char) (target : Nat) :
    wecomShrink l target <+: l := by
  by_cases h : utf8Len l ≤ target
  · rw [wecomShrink, if_pos h]
  · rw [wecomShrink, if_neg h]
    exact (wecomShrink_leading (pyTakeInt l ((l.length : Int) - 100)) target).trans
      (pyTakeInt_leading l _)
termination_by l.length
decreasing_by
  apply pyTakeInt_length_lt
  intro hnil
  subst hnil
  simp [utf8Len] at h

theorem rfindIdx_get (c : Char) (l : List Char) (i : Nat)
    (h : rfindIdx c l = some i) : l.get? i = some c := by
  induction l generalizing i with
  | nil => cases h
  | cons a t ih =>
    unfold rfindIdx at h
    rcases ht : rfindIdx c t with _ | j
    · rw [ht] at h
      by_cases hac : a == c
      · rw [if_pos hac] at h
        cases h
        simp only [List.get?]
        rw [eq_of_beq hac]
      · rw [if_neg hac] at h
        cases h
    · rw [ht] at h
      cases h
      simpa using ih j ht

theorem rfindIdx_ge (c : Char) (l : List Char) (j : Nat)
    (h : l.get? j = some c) : ∃ i, rfindIdx c l = some i ∧ j ≤ i := by
  induction l generalizing j with
  | nil => cases h
  | cons a t ih =>
    cases j with
    | zero =>
      unfold rfindIdx
      rcases ht : rfindIdx c t with _ | i
      · simp only [List.get?] at h
        have : a = c := Option.some.inj h
        refine ⟨0, ?_, Nat.le_refl 0⟩
        rw [if_pos (beq_iff_eq.mpr this)]
      · exact ⟨i + 1, rfl, Nat.zero_le _⟩
    | succ j' =>
      simp only [List.get?] at h
      obtain ⟨i, hi, hji⟩ := ih j' h
      unfold rfindIdx
      rw [hi]
      exact ⟨i + 1, rfl, Nat.succ_le_succ hji⟩

theorem rfindIdx_lt_length (c : Char) (l : List Char) (i : Nat)
    (h : rfindIdx c l = some i) : i < l.length :=
  List.get?_eq_some.mp (rfindIdx_get c l i h) |>.1

theorem get?_eq_of_leading (l1 l2 : List Char) (i : Nat)
    (hpre : l1 <+: l2) (hi : i < l1.length) : l2.get? i = l1.get? i := by
  obtain ⟨r, rfl⟩ := hpre
  exact List.get?_append hi

theorem utf8Len_wecomNotice_le : utf8Len wecomNotice ≤ 100 := by decide

/-- Claim C8: for every document exceeding the fixed 4096-byte UTF-8 cap,
the webhook truncation returns a prefix of the document followed by the
fixed truncation notice, at most 4096 UTF-8 bytes in total, and the cut
lands exactly on a line boundary of the document whenever the retained text
contains a newline past the document's midpoint; a document within the cap
is returned unchanged. -/
theorem truncate_content_for_wecom_spec (content : List Char) :
    (utf8Len content ≤ 4096 → truncate_content_for_wecom content = content) ∧
    (4096 < utf8Len content →
      ∃ p, p <+: content ∧
        truncate_content_for_wecom content = p ++ wecomNotice ∧
        utf8Len (truncate_content_for_wecom content) ≤ 4096 ∧
        ((∃ i, content.length / 2 < i ∧
            (wecomShrink content 3996).get? i = some '\n') →
          content.get? p.length = some '\n')) := by
  constructor
  · intro h
    unfold truncate_content_for_wecom
    rw [if_pos h]
  · intro h
    have hnle : ¬ utf8Len content ≤ 4096 := by omega
    have heq : truncate_content_for_wecom content
        = (match rfindIdx '\n' (wecomShrink content 3996) with
           | some i =>
             if (wecomShrink content 3996).length / 2 < i
             then (wecomShrink content 3996).take i
             else wecomShrink content 3996
           | none => wecomShrink content 3996) ++ wecomNotice := by
      unfold truncate_content_for_wecom
      rw [if_neg hnle]
    have hshrink_le : utf8Len (wecomShrink content 3996) ≤ 3996 := wecomShrink_le content 3996
    have hshrink_pre : wecomShrink content 3996 <+: content := wecomShrink_leading content 3996
    have hshrink_len : (wecomShrink content 3996).length ≤ content.length :=
      hshrink_pre.length_le
    rcases hr : rfindIdx '\n' (wecomShrink content 3996) with _ | m
    · simp only [hr] at heq
      refine ⟨wecomShrink content 3996, hshrink_pre, heq, ?_, ?_⟩
      · rw [heq, utf8Len_append]
        have := utf8Len_wecomNotice_le
        omega
      · rintro ⟨i, _, hget⟩
        obtain ⟨i', hi', _⟩ := rfindIdx_ge '\n' _ i hget
        rw [hr] at hi'
        cases hi'
    · simp only [hr] at heq
      have hm_lt : m < (wecomShrink content 3996).length :=
        rfindIdx_lt_length '\n' _ m hr
      have hm_nl : (wecomShrink content 3996).get? m = some '\n' :=
        rfindIdx_get '\n' _ m hr
      by_cases hmid : (wecomShrink content 3996).length / 2 < m
      · rw [if_pos hmid] at heq
        refine ⟨(wecomShrink content 3996).take m,
          (List.take_prefix _ _).trans hshrink_pre, heq, ?_, ?_⟩
        · rw [heq, utf8Len_append]
          have h1 : utf8Len ((wecomShrink content 3996).take m)
              ≤ utf8Len (wecomShrink content 3996) := utf8Len_take_le _ m
          have := utf8Len_wecomNotice_le
          omega
        · intro _
          have hlen_take : ((wecomShrink content 3996).take m).length = m := by
            rw [List.length_take]
            omega
          rw [hlen_take]
          rw [get?_eq_of_leading _ content m hshrink_pre hm_lt]
          exact hm_nl
      · rw [if_neg hmid] at heq
        refine ⟨wecomShrink content 3996, hshrink_pre, heq, ?_, ?_⟩
        · rw [heq, utf8Len_append]
          have := utf8Len_wecomNotice_le
          omega
        · rintro ⟨i, hihalf, hget⟩
          obtain ⟨i', hi', hle⟩ := rfindIdx_ge '\n' _ i hget
          rw [hr] at hi'
          have him : i' = m := (Option.some.inj hi').symm
          subst him
          have : (wecomShrink content 3996).length / 2 < i' := by
            have := Nat.div_le_div_right (c := 2) hshrink_len
            omega
          omega

/-- Claim C8 witness: a 5000-byte ASCII document is truncated to at most
4096 bytes ending with the fixed notice. -/
theorem truncate_content_for_wecom_spec_witness :
    4096 < utf8Len (List.replicate 5000 'a') ∧
    (∃ p, p <+: List.replicate 5000 'a' ∧
      truncate_content_for_wecom (List.replicate 5000 'a') = p ++ wecomNotice ∧
      utf8Len (truncate_content_for_wecom (List.replicate 5000 'a')) ≤ 4096 ∧
      ((∃ i, (List.replicate 5000 'a').length / 2 < i ∧
          (wecomShrink (List.replicate 5000 'a') 3996).get? i = some '\n') →
        (List.replicate 5000 'a').get? p.length = some '\n')) := by
  have h5000 : 4096 < utf8Len (List.replicate 5000 'a') := by
    rw [utf8Len_replicate]
    rw [show ('a').utf8Size = 1 from rfl]
    norm_num
  exact ⟨h5000, (truncate_content_for_wecom_spec (List.replicate 5000 'a')).2 h5000⟩

end GitChangelogAI
